import Mathlib

/-!
# SnapMotion Wizard — verification of the frozen claims

Shallow embedding of `src/snapmotion_wizard.py`. Python floats are modelled
as exact rationals (`ℚ`); Python `int()` truncation and `round()` (round
half to even) are modelled explicitly. Fallible code returns `Except`.
External effects (filesystem, the ffmpeg subprocess, the OpenCV writer) are
modelled as explicit environment records passed into the functions, and the
observable outputs (frames written, command built, progress reports, final
state of the temporary directory) are returned as data.
-/

/-- Python `int()` applied to a float/rational: truncation toward zero. -/
def pyIntTrunc (q : ℚ) : ℤ :=
  if 0 ≤ q then ⌊q⌋ else ⌈q⌉

/-- Python `round()` applied to a rational: round half to even. Used only to
state what the spec's `round(per-image-duration × 30)` denotes. -/
def pyRound (q : ℚ) : ℤ :=
  let f := ⌊q⌋
  let r := q - f
  if r < 1/2 then f
  else if 1/2 < r then f + 1
  else if f % 2 = 0 then f else f + 1

/-- Numeric value of a list of decimal digit characters (most significant first). -/
def natOfDigits (cs : List Char) : ℕ :=
  cs.foldl (fun n c => n * 10 + (c.toNat - 48)) 0

/-- ASCII whitespace as stripped by Python `str.strip()`. -/
def pyWhitespace (c : Char) : Bool :=
  c = ' ' || c = '\t' || c = '\n' || c = '\r' || c = '\x0b' || c = '\x0c'

/-- Strip leading and trailing whitespace from a character list. -/
def stripChars (cs : List Char) : List Char :=
  ((cs.dropWhile pyWhitespace).reverse.dropWhile pyWhitespace).reverse

/-- Python `str.strip()`. -/
def pyStrip (s : String) : String := ⟨stripChars s.data⟩

/-- Python `str.split(sep)` for a one-character separator, on character
lists: every occurrence of `sep` separates fields. -/
def splitOnChar (sep : Char) : List Char → List (List Char)
  | [] => [[]]
  | c :: cs =>
    let r := splitOnChar sep cs
    if c = sep then [] :: r
    else
      match r with
      | [] => [[c]]
      | h :: t => (c :: h) :: t

/-- ASCII lower-casing of one character, as `str.lower()` does on the
ASCII file names and answers this program handles. -/
def toLowerChar (c : Char) : Char :=
  if 'A' ≤ c ∧ c ≤ 'Z' then Char.ofNat (c.toNat + 32) else c

/-- Python `str.lower()` (ASCII range). -/
def pyLower (s : String) : String := ⟨s.data.map toLowerChar⟩

/-- `cs` ends with `suffix` (Python `str.endswith`). -/
def endsWithChars (cs suffix : List Char) : Bool :=
  decide (cs.drop (cs.length - suffix.length) = suffix)

/-- Lexicographic order on character lists by code point — Python's
string `<=` used by `list.sort()` on the joined paths. -/
def charListLe : List Char → List Char → Bool
  | [], _ => true
  | _ :: _, [] => false
  | a :: as, b :: bs =>
    if a.toNat < b.toNat then true
    else if b.toNat < a.toNat then false
    else charListLe as bs

/-- String comparison for sorting. -/
def strLe (a b : String) : Bool := charListLe a.data b.data

/-- Rest of a PEP 515 `digitpart` after its first digit: digits with
single underscores allowed between digits only. -/
def digitPartRest : List Char → Bool
  | [] => true
  | '_' :: cs =>
    match cs with
    | [] => false
    | c :: cs2 => c.isDigit && digitPartRest cs2
  | c :: cs => c.isDigit && digitPartRest cs

/-- A Python numeric-literal `digitpart`: non-empty, starts and ends with
a digit, single underscores only between digits (PEP 515). -/
def isDigitPart (cs : List Char) : Bool :=
  match cs with
  | [] => false
  | c :: rest => c.isDigit && digitPartRest rest

/-- Numeric value of a `digitpart`, ignoring its underscores. -/
def digitsValU (cs : List Char) : ℕ :=
  natOfDigits (cs.filter (fun c => c ≠ '_'))

/-- Validated `digitpart` value, as Python `int` parses the digits after
sign stripping; `none` on the empty list, a stray underscore or any
non-digit. -/
def digitsVal (cs : List Char) : Option ℕ :=
  if isDigitPart cs then some (digitsValU cs) else none

/-- Python `int(s)`: strip whitespace, optional sign, decimal digits. -/
def pyInt (s : String) : Option ℤ :=
  match stripChars s.data with
  | '+' :: cs => (digitsVal cs).map Int.ofNat
  | '-' :: cs => (digitsVal cs).map (fun n => -(n : ℤ))
  | cs => (digitsVal cs).map Int.ofNat

/-- Unsigned mantissa of a Python float literal:
`digitpart ['.' [digitpart]] | '.' digitpart` (underscores per PEP 515),
valued exactly as a rational. -/
def decValMant (cs : List Char) : Option ℚ :=
  let ip := cs.takeWhile (fun c => c ≠ '.')
  match cs.dropWhile (fun c => c ≠ '.') with
  | [] =>
    if isDigitPart ip then some ((digitsValU ip : ℕ) : ℚ) else none
  | _ :: frac =>
    if frac.contains '.' then none
    else if ip.isEmpty && frac.isEmpty then none
    else if (ip.isEmpty || isDigitPart ip) && (frac.isEmpty || isDigitPart frac) then
      some ((digitsValU ip : ℚ) +
        (digitsValU frac : ℚ) / ((10 : ℚ) ^ (frac.filter (fun c => c ≠ '_')).length))
    else none

/-- Exponent of a Python float literal, after the `e`/`E`:
optional sign then a `digitpart`. -/
def expVal (cs : List Char) : Option ℤ :=
  match cs with
  | '+' :: ds => if isDigitPart ds then some ((digitsValU ds : ℕ) : ℤ) else none
  | '-' :: ds => if isDigitPart ds then some (-((digitsValU ds : ℕ) : ℤ)) else none
  | ds => if isDigitPart ds then some ((digitsValU ds : ℕ) : ℤ) else none

/-- Unsigned numeric Python float literal: mantissa with optional
`e`/`E` exponent, valued exactly as a rational. -/
def decValSci (cs : List Char) : Option ℚ :=
  let mant := cs.takeWhile (fun c => !(c = 'e' || c = 'E'))
  match cs.dropWhile (fun c => !(c = 'e' || c = 'E')) with
  | [] => decValMant mant
  | _ :: ex =>
    match decValMant mant, expVal ex with
    | some m, some e => some (m * (10 : ℚ) ^ e)
    | _, _ => none

/-- The value of a Python float as this program observes it: an exact
rational for finite values (the decimal literals here are modelled
exactly), or the non-finite values `nan` and `±inf`, which `float()`
also accepts as the literals `nan` / `inf` / `infinity`. -/
inductive PyFloatVal where
  | finite (q : ℚ)
  | nan
  | inf (neg : Bool)
deriving DecidableEq, Repr

/-- Body of `float(s)` after sign stripping: the case-insensitive
`inf`/`infinity`/`nan` literals, else a numeric literal. A sign on `nan`
is ignored (the result is still NaN). -/
def pyFloatBody (cs : List Char) (neg : Bool) : Option PyFloatVal :=
  let l := cs.map toLowerChar
  if l = "inf".data || l = "infinity".data then some (.inf neg)
  else if l = "nan".data then some .nan
  else (decValSci cs).map (fun q => .finite (if neg then -q else q))

/-- Python `float(s)`: strip whitespace, optional sign, then a float
literal — numeric (with optional fraction, exponent and PEP 515
underscores) or one of `inf`, `infinity`, `nan`. -/
def pyFloat (s : String) : Option PyFloatVal :=
  match stripChars s.data with
  | '+' :: cs => pyFloatBody cs false
  | '-' :: cs => pyFloatBody cs true
  | cs => pyFloatBody cs false

/-- IEEE-style `v <= c` against a finite bound, as Python evaluates it:
any comparison with NaN is false, `-inf <= c` is true, `+inf <= c` is
false. -/
def pyFloatLe (v : PyFloatVal) (c : ℚ) : Bool :=
  match v with
  | .finite q => decide (q ≤ c)
  | .nan => false
  | .inf neg => neg

/-- A source image file: path plus the implicit attributes the program
reads (pixel dimensions, modification time). -/
structure Img where
  path : String
  width : ℤ
  height : ℤ
  mtime : ℤ
deriving DecidableEq, Repr

/-- The module-global mutable `image_files` variable written by `main` and
read by `create_video_with_ffmpeg`. -/
structure GlobalState where
  image_files : List Img
deriving DecidableEq, Repr

/-- Pixel dimensions of an image after the optional forced resize
(`img.resize(resize, LANCZOS)` when `resize` is truthy). -/
def resizedDims (resize : Option (ℤ × ℤ)) (img : Img) : ℤ × ℤ :=
  match resize with
  | some wh => wh
  | none => (img.width, img.height)

/-- Error kinds raised by the program (`RuntimeError` / `ValueError`
occurrences, plus a generic carrier for any other exception). -/
inductive Err where
  | encoderUnavailable
  | encoderProcess
  | noImages
  | writerInit
  | otherExc
deriving DecidableEq, Repr

/-- One frame as written to the OpenCV `VideoWriter`: the source path it
was decoded from, its dimensions after resize, and the fact that it was
converted to BGR channel order before the write. -/
structure Frame where
  src : String
  width : ℤ
  height : ℤ
  bgr : Bool
deriving DecidableEq, Repr

/-- `frames_per_image = int(frame_duration * fps)` with `fps = 30`:
Python `int()` truncates. -/
def framesPerImage (frame_duration : ℚ) : ℕ :=
  (pyIntTrunc (frame_duration * 30)).toNat

/-- The per-image processing of the fallback loop: decode, convert to RGB,
optional resize, convert RGB→BGR. -/
def processFallbackImage (resize : Option (ℤ × ℤ)) (img : Img) : Frame :=
  let wh := resizedDims resize img
  ⟨img.path, wh.1, wh.2, true⟩

/-- `create_video_fallback(image_files, output_path, frame_duration, resize)`.
`writerOpens` models `video_writer.isOpened()`; `writeFails` models an
exception raised inside the write loop (the writer is released in the
`finally` either way). On success the returned list is the exact sequence
of frames written to the `VideoWriter`. -/
def create_video_fallback (image_files : List Img) (output_path : String)
    (frame_duration : ℚ) (resize : Option (ℤ × ℤ))
    (writerOpens : Bool) (writeFails : Bool) : Except Err (List Frame) :=
  if image_files.isEmpty then .error .noImages
  else if !writerOpens then .error .writerInit
  else if writeFails then .error .otherExc
  else .ok (image_files.flatMap (fun img =>
    List.replicate (framesPerImage frame_duration) (processFallbackImage resize img)))

/-- Zero-padded six-digit rendering of an index, as in `f"frame_{idx:06d}"`. -/
def pad6 (n : ℕ) : String :=
  let s := toString n
  String.mk (List.replicate (6 - s.length) '0') ++ s

/-- One staged frame file saved into the temporary directory:
`temp_dir / f"frame_{idx:06d}.png"`, holding the image after RGB
conversion and optional resize. -/
structure StagedFrame where
  idx : ℕ
  name : String
  width : ℤ
  height : ℤ
deriving DecidableEq, Repr

/-- First pass of `create_video_with_ffmpeg`: enumerate the GLOBAL
`image_files`, convert each to RGB, optionally resize, save under a
sequential zero-padded name. -/
def stage (resize : Option (ℤ × ℤ)) (files : List Img) : List StagedFrame :=
  (List.range files.length).zip files |>.map (fun p =>
    let wh := resizedDims resize p.2
    ⟨p.1, "frame_" ++ pad6 p.1 ++ ".png", wh.1, wh.2⟩)

/-- The ffmpeg invocation assembled in `cmd`: overwrite flag `-y`,
`-framerate {1/frame_duration}`, input pattern, codec, pixel format,
CRF, preset, output path. -/
structure FfmpegCmd where
  overwrite : Bool
  framerate : ℚ
  inputPattern : String
  codec : String
  pixFmt : String
  crf : ℕ
  preset : String
  output : String
deriving DecidableEq, Repr

/-- Build the ffmpeg command list of `create_video_with_ffmpeg`. The input
pattern is `str(temp_dir / 'frame_%06d.png')` with `temp_dir` named
`temp_frames` under the output's parent directory. -/
def buildCmd (output_path : String) (frame_duration : ℚ) : FfmpegCmd :=
  { overwrite := true
    framerate := 1 / frame_duration
    inputPattern := "temp_frames/frame_%06d.png"
    codec := "libx264"
    pixFmt := "yuv420p"
    crf := 23
    preset := "medium"
    output := output_path }

/-- One line read from the ffmpeg stderr stream, classified as the progress
loop observes it: no `time=` marker at all, a `time=` marker whose
`HH:MM:SS` split fails to parse (the `except: continue` path), or a parsed
marker with its three `float` fields. -/
inductive LineEv where
  | noTime
  | badParse
  | time (h m s : ℚ)
deriving DecidableEq, Repr

/-- `percent = min(int((current_seconds / total_seconds) * 100), 100)`. -/
def percentOf (total current : ℚ) : ℤ :=
  min (pyIntTrunc (current / total * 100)) 100

/-- One iteration of the progress loop: state is `last_percent`; the bar is
advanced (and `last_percent` updated) only when the freshly computed
percent strictly exceeds it; lines without a parseable marker leave the
state unchanged. -/
def progressStep (total : ℚ) (last_percent : ℕ) (ev : LineEv) : ℕ :=
  match ev with
  | .noTime => last_percent
  | .badParse => last_percent
  | .time h m s =>
    let current_seconds := h * 3600 + m * 60 + s
    let percent := percentOf total current_seconds
    if (last_percent : ℤ) < percent then percent.toNat else last_percent

/-- External behaviour visible to `create_video_with_ffmpeg`: whether the
ffmpeg binary exists, whether an exception interrupts the staging loop
(and after how many images), the subprocess exit code, and its stderr
lines. -/
structure Env where
  ffmpegExists : Bool
  stagingFailsAt : Option ℕ
  returncode : ℤ
  stderrLines : List LineEv
deriving Repr

/-- Observable outcome of one call to `create_video_with_ffmpeg`: the
result (`None` on success, else the raised error), whether the
`temp_frames` directory exists after the call, the frames staged, the
ffmpeg command built (if reached), and the successive `last_percent`
values of the progress loop. -/
structure PrimaryResult where
  result : Except Err Unit
  tempDirExistsAfter : Bool
  staged : List StagedFrame
  cmd : Option FfmpegCmd
  progress : List ℕ
deriving Repr

/-- `create_video_with_ffmpeg(image_folder, output_path, frame_duration,
resize)`. The first parameter is accepted with an arbitrary type and — as
in the source — never used: the staging loop iterates the global
`image_files`. The ffmpeg-missing check precedes the creation of
`temp_frames` and the `try`; the `finally` removes the directory on every
path reached from inside the `try`. `tempDirPre` says whether
`temp_frames` already existed before the call (`mkdir(exist_ok=True)`
tolerates that). -/
def create_video_with_ffmpeg {α : Type} (image_folder : α) (output_path : String)
    (frame_duration : ℚ) (resize : Option (ℤ × ℤ))
    (g : GlobalState) (env : Env) (tempDirPre : Bool) : PrimaryResult :=
  if !env.ffmpegExists then
    -- `raise RuntimeError("FFmpeg not found …")` before temp_dir is created
    { result := .error .encoderUnavailable
      tempDirExistsAfter := tempDirPre
      staged := []
      cmd := none
      progress := [] }
  else
    match env.stagingFailsAt with
    | some k =>
      if k < g.image_files.length then
        -- exception after k successful saves; finally removes temp_frames
        { result := .error .otherExc
          tempDirExistsAfter := false
          staged := stage resize (g.image_files.take k)
          cmd := none
          progress := [] }
      else
        let staged := stage resize g.image_files
        let cmd := buildCmd output_path frame_duration
        let total := (g.image_files.length : ℚ) * frame_duration
        let progress := env.stderrLines.scanl (progressStep total) 0
        { result := if env.returncode ≠ 0 then .error .encoderProcess else .ok ()
          tempDirExistsAfter := false
          staged := staged
          cmd := some cmd
          progress := progress }
    | none =>
      let staged := stage resize g.image_files
      let cmd := buildCmd output_path frame_duration
      let total := (g.image_files.length : ℚ) * frame_duration
      let progress := env.stderrLines.scanl (progressStep total) 0
      { result := if env.returncode ≠ 0 then .error .encoderProcess else .ok ()
        tempDirExistsAfter := false
        staged := staged
        cmd := some cmd
        progress := progress }

/-- The seven raw console responses gathered by `main`, in prompt order. -/
structure ConsoleInput where
  image_folder : String
  sort_choice : String
  duration_input : String
  resize_choice : String
  file_name : String
  output_folder : String
  confirm : String
deriving Repr

/-- The filesystem as `main` consults it: `os.path.isdir` and
`os.listdir` (the latter returning the directory entries with their
implicit attributes; `Img.path` holds the bare entry name). -/
structure SysEnv where
  isdir : String → Bool
  listdir : String → List Img

/-- Step 3 of `main`: `float(duration_input) if duration_input else 2.0`,
`ValueError` (→ `none`) on a bad literal. `float()` also accepts the
non-finite literals `nan`/`inf`/`infinity`. -/
def parseDuration (s : String) : Option PyFloatVal :=
  if s.data.isEmpty then some (.finite 2) else pyFloat s

/-- Step 4 of `main`: empty response means no resize; otherwise
`width, height = map(int, resize_choice.split('x'))`, `ValueError`
(→ `none`) when a part is not an int or the part count is not two. -/
def parseResize (s : String) : Option (Option (ℤ × ℤ)) :=
  if s.data.isEmpty then some none
  else
    match (splitOnChar 'x' s.data).map (fun cs => pyInt ⟨cs⟩) with
    | [some w, some h] => some (some (w, h))
    | _ => none

/-- `f.lower().endswith((".png", ".jpg", ".jpeg"))`. -/
def isImageFile (f : String) : Bool :=
  let l := (pyLower f).data
  endsWithChars l ".png".data || endsWithChars l ".jpg".data || endsWithChars l ".jpeg".data

/-- Insert keeping the list sorted by `le` (used to model `list.sort`). -/
def insertLe (le : Img → Img → Bool) (x : Img) : List Img → List Img
  | [] => [x]
  | y :: ys => if le y x then y :: insertLe le x ys else x :: y :: ys

/-- Insertion sort modelling Python's ascending `list.sort(…)`. -/
def sortLe (le : Img → Img → Bool) : List Img → List Img
  | [] => []
  | x :: xs => insertLe le x (sortLe le xs)

/-- Everything `main` hands to the encoding phase after validation. -/
structure JobParams where
  frame_duration : ℚ
  resize : Option (ℤ × ℤ)
  output_path : String
  image_files : List Img
  sortByMtime : Bool
deriving DecidableEq, Repr

/-- Where the interactive part of `main` ends: each `abort…` constructor is
one of the `print(error); return` early exits, in source order;
`proceed p summaryDuration` means the confirmation succeeded and
processing starts with parameters `p`, after a summary quoting
`summaryDuration` as the estimated video duration.
`proceedNonFinite v resize output_path image_files sortByMtime` likewise
means every check passed and processing starts, but the per-image
duration `v` is a non-finite float (`nan` or `+inf` — values `float()`
accepts and the `<= 0` guard does not reject, since NaN comparisons are
false); the summary then quotes `len * v` (nan/inf) and the encode phase
— where Python raises only later, e.g. at `int(nan * 30)` — is outside
the rational `JobParams`, so the state is recorded by this separate
constructor. -/
inductive MainOutcome where
  | abortFolderMissing
  | abortBadDuration
  | abortBadResize
  | abortEmptyFilename
  | abortOutputFolderMissing
  | abortNoImages
  | abortNotConfirmed
  | proceed (p : JobParams) (summaryDuration : ℚ)
  | proceedNonFinite (v : PyFloatVal) (resize : Option (ℤ × ℤ)) (output_path : String)
      (image_files : List Img) (sortByMtime : Bool)
deriving Repr

/-- The interactive prefix of `main`, from the first prompt up to (and
including) the confirmation, as a function of the raw responses and the
filesystem. Mirrors the source order: folder check, sort choice (no
validation: `input(...).strip() or "1"`), duration parse and `<= 0`
guard, resize, file name, output folder, image collection and extension
filter, empty check, sort, summary, confirmation. The parsed duration is
carried as a Python float value; the final split on its finiteness exists
only because the rational `JobParams` cannot hold `nan`/`inf` — the
program itself has a single proceed path, and nothing between the guard
and the end reads the duration. -/
def mainPipeline (inp : ConsoleInput) (env : SysEnv) : MainOutcome :=
  let image_folder := pyStrip inp.image_folder
  if !env.isdir image_folder then .abortFolderMissing
  else
    let sort_choice :=
      if (pyStrip inp.sort_choice).data.isEmpty then "1" else pyStrip inp.sort_choice
    match parseDuration (pyStrip inp.duration_input) with
    | none => .abortBadDuration
    | some v =>
      if pyFloatLe v 0 then .abortBadDuration
      else
        match parseResize (pyStrip inp.resize_choice) with
        | none => .abortBadResize
        | some resize =>
          let file_name := pyStrip inp.file_name
          if file_name.data.isEmpty then .abortEmptyFilename
          else
            let output_folder := pyStrip inp.output_folder
            if !env.isdir output_folder then .abortOutputFolderMissing
            else
              let output_path := output_folder ++ "/" ++ file_name ++ ".mp4"
              let image_files :=
                ((env.listdir image_folder).filter (fun f => isImageFile f.path)).map
                  (fun f => { f with path := image_folder ++ "/" ++ f.path })
              if image_files.isEmpty then .abortNoImages
              else
                let sorted :=
                  if sort_choice = "2" then
                    sortLe (fun a b => a.mtime ≤ b.mtime) image_files
                  else
                    sortLe (fun a b => strLe a.path b.path) image_files
                if pyLower (pyStrip inp.confirm) ≠ "y" then .abortNotConfirmed
                else
                  match v with
                  | .finite frame_duration =>
                    .proceed ⟨frame_duration, resize, output_path, sorted, sort_choice = "2"⟩
                      ((sorted.length : ℚ) * frame_duration)
                  | v => .proceedNonFinite v resize output_path sorted (sort_choice = "2")

/-- External behaviour involved in one processing run: the fields consumed
by the primary driver plus the fallback writer's. -/
structure RunEnv where
  ffmpegExists : Bool
  stagingFailsAt : Option ℕ
  returncode : ℤ
  stderrLines : List LineEv
  tempDirPre : Bool
  writerOpens : Bool
  fallbackWriteFails : Bool
deriving Repr

/-- The primary-driver slice of a `RunEnv`. -/
def RunEnv.toEnv (r : RunEnv) : Env :=
  ⟨r.ffmpegExists, r.stagingFailsAt, r.returncode, r.stderrLines⟩

/-- What the success block of `main` prints: `final_output` as the
location (the value returned by whichever encode routine ran — both
return `None`, hence `Option String`), the duration figure, and the
image count. -/
structure SuccessReport where
  location : Option String
  duration : ℚ
  totalImages : ℕ
deriving DecidableEq, Repr

/-- Outcome of the processing phase of `main`: how many times the fallback
was attempted, the primary error quoted in the fallback warning (if any),
and either the success report or the terminal error printed by the outer
`except`. -/
structure JobReport where
  fallbackAttempts : ℕ
  warned : Option Err
  outcome : Except Err SuccessReport
deriving Repr

/-- The processing phase of `main` (the outer `try` block): call
`create_video_with_ffmpeg(image_files, output_path, frame_duration,
resize)` — note the list passed as the unused first argument — and on any
exception print a warning quoting it and retry once via
`create_video_fallback`; a fallback exception reaches the outer `except`
and is terminal. `total_duration` is the figure computed before the
confirmation, reused by the success print. -/
def runJob (p : JobParams) (total_duration : ℚ) (renv : RunEnv) : JobReport :=
  match (create_video_with_ffmpeg p.image_files p.output_path p.frame_duration p.resize
    ⟨p.image_files⟩ renv.toEnv renv.tempDirPre).result with
  | .ok _ =>
    { fallbackAttempts := 0
      warned := none
      outcome := .ok ⟨none, total_duration, p.image_files.length⟩ }
  | .error e =>
    match create_video_fallback p.image_files p.output_path p.frame_duration p.resize
        renv.writerOpens renv.fallbackWriteFails with
    | .ok _ =>
      { fallbackAttempts := 1
        warned := some e
        outcome := .ok ⟨none, total_duration, p.image_files.length⟩ }
    | .error e2 =>
      { fallbackAttempts := 1
        warned := some e
        outcome := .error e2 }

/-! ## Concrete fixtures used by witnesses and counterexamples -/

/-- A source directory entry. -/
def img0 : Img := ⟨"a.jpg", 640, 480, 0⟩

/-- Console responses: existing folders, sort answer `"3"` (not offered by
the prompt, which asks for 1 or 2), default duration, no resize,
name `out`, confirmation `y`. -/
def inpC : ConsoleInput := ⟨"pics", "3", "", "", "out", "vids", "y"⟩

/-- A filesystem with directories `pics` (holding one JPEG) and `vids`. -/
def envC : SysEnv :=
  ⟨fun s => s = "pics" || s = "vids",
   fun s => if s = "pics" then [img0] else []⟩

/-- The job parameters `mainPipeline inpC envC` proceeds with. -/
def pC : JobParams := ⟨2, none, "vids/out.mp4", [⟨"pics/a.jpg", 640, 480, 0⟩], false⟩

/-- The summary duration `mainPipeline inpC envC` proceeds with. -/
def sC : ℚ := ((1 : ℕ) : ℚ) * 2

/-- Console responses identical to `inpC` but with sort answer `"1"` and a
given resolution answer. -/
def inpRes (r : String) : ConsoleInput := ⟨"pics", "1", "", r, "out", "vids", "y"⟩

/-- The job parameters `mainPipeline (inpRes "1280x720") envC` proceeds with. -/
def pRes : JobParams :=
  ⟨2, some (1280, 720), "vids/out.mp4", [⟨"pics/a.jpg", 640, 480, 0⟩], false⟩

/-- A run environment where the primary path succeeds. -/
def renvOK : RunEnv := ⟨true, none, 0, [], false, true, false⟩

/-- A run environment where the ffmpeg binary is absent and the fallback
writer opens. -/
def renvNoFfmpeg : RunEnv := ⟨false, none, 0, [], false, true, false⟩

/-! ## Helper lemmas -/

lemma length_flatMap_replicate (g : Img → Frame) (k : ℕ) :
    ∀ l : List Img, (l.flatMap fun i => List.replicate k (g i)).length = l.length * k
  | [] => by simp
  | i :: l => by
    simp [length_flatMap_replicate g k l, Nat.succ_mul, Nat.add_comm]

lemma progressStep_le_self (total : ℚ) (lp : ℕ) (ev : LineEv) :
    lp ≤ progressStep total lp ev := by
  cases ev with
  | noTime => exact le_refl _
  | badParse => exact le_refl _
  | time h m s =>
    simp only [progressStep]
    split
    · next hlt => exact le_of_lt (Int.lt_toNat.mpr hlt)
    · exact le_refl _

lemma progressStep_le_100 (total : ℚ) (lp : ℕ) (ev : LineEv) (hle : lp ≤ 100) :
    progressStep total lp ev ≤ 100 := by
  cases ev with
  | noTime => exact hle
  | badParse => exact hle
  | time h m s =>
    simp only [progressStep]
    split
    · exact Int.toNat_le.mpr (min_le_right _ _)
    · exact hle

lemma scanl_head {α β : Type} (f : β → α → β) (b : β) (l : List α) :
    (List.scanl f b l).head? = some b := by
  cases l <;> simp [List.scanl]

lemma chain'_le_scanl (total : ℚ) :
    ∀ (l : List LineEv) (lp : ℕ),
      List.Chain' (· ≤ ·) (List.scanl (progressStep total) lp l)
  | [], lp => by simp
  | ev :: l, lp => by
    rw [List.scanl_cons, List.singleton_append]
    refine List.chain'_cons'.mpr ⟨?_, chain'_le_scanl total l (progressStep total lp ev)⟩
    intro y hy
    rw [scanl_head] at hy
    cases hy
    exact progressStep_le_self total lp ev

lemma scanl_all_le (total : ℚ) :
    ∀ (l : List LineEv) (lp : ℕ), lp ≤ 100 →
      ((List.scanl (progressStep total) lp l).all (fun x => x ≤ 100)) = true
  | [], lp, hle => by simpa using hle
  | ev :: l, lp, hle => by
    rw [List.scanl_cons, List.singleton_append, List.all_cons]
    have h1 := scanl_all_le total l (progressStep total lp ev)
      (progressStep_le_100 total lp ev hle)
    simp [hle, h1]

lemma insertLe_length (le : Img → Img → Bool) (x : Img) :
    ∀ l : List Img, (insertLe le x l).length = l.length + 1
  | [] => rfl
  | y :: ys => by
    simp only [insertLe]
    split
    · simp [insertLe_length le x ys]
    · rfl

lemma sortLe_length (le : Img → Img → Bool) :
    ∀ l : List Img, (sortLe le l).length = l.length
  | [] => rfl
  | x :: xs => by
    simp [sortLe, insertLe_length, sortLe_length le xs]

lemma sortLe_eq_nil (le : Img → Img → Bool) (l : List Img)
    (h : sortLe le l = []) : l = [] := by
  have hlen := congrArg List.length h
  rw [sortLe_length] at hlen
  exact List.length_eq_zero.mp (by simpa using hlen)

lemma ite_sortLe_ne_nil (c : Prop) [Decidable c] (le1 le2 : Img → Img → Bool)
    (l : List Img) (hl : l ≠ []) :
    (if c then sortLe le1 l else sortLe le2 l) ≠ [] := by
  split <;> exact fun h => hl (sortLe_eq_nil _ _ h)

/-- Inversion of a proceeding pipeline run: every validated prompt passed
its check (the duration to a finite positive value), the frame sequence
is non-empty, and the summary duration is
`frame_count × per-image duration`. -/
lemma mainPipeline_proceed_inv (inp : ConsoleInput) (env : SysEnv)
    (p : JobParams) (s : ℚ) (hp : mainPipeline inp env = .proceed p s) :
    env.isdir (pyStrip inp.image_folder) = true ∧
    (∃ d : ℚ, parseDuration (pyStrip inp.duration_input) = some (.finite d) ∧ 0 < d ∧
      p.frame_duration = d) ∧
    (∃ r, parseResize (pyStrip inp.resize_choice) = some r ∧ p.resize = r) ∧
    (pyStrip inp.file_name).data ≠ [] ∧
    env.isdir (pyStrip inp.output_folder) = true ∧
    pyLower (pyStrip inp.confirm) = "y" ∧
    p.image_files ≠ [] ∧
    s = (p.image_files.length : ℚ) * p.frame_duration := by
  cases hb1 : env.isdir (pyStrip inp.image_folder) with
  | false => simp [mainPipeline, hb1] at hp
  | true =>
    cases hd : parseDuration (pyStrip inp.duration_input) with
    | none => simp [mainPipeline, hb1, hd] at hp
    | some w =>
      cases hfd : pyFloatLe w 0 with
      | true => simp [mainPipeline, hb1, hd, hfd] at hp
      | false =>
        cases hr : parseResize (pyStrip inp.resize_choice) with
        | none => simp [mainPipeline, hb1, hd, hfd, hr] at hp
        | some r =>
          by_cases hfn : (pyStrip inp.file_name).data.isEmpty
          · simp [mainPipeline, hb1, hd, hfd, hr, hfn] at hp
          · cases hb2 : env.isdir (pyStrip inp.output_folder) with
            | false => simp [mainPipeline, hb1, hd, hfd, hr, hfn, hb2] at hp
            | true =>
              by_cases hne : (((env.listdir (pyStrip inp.image_folder)).filter
                  (fun f => isImageFile f.path)).map
                    (fun f => { f with
                      path := pyStrip inp.image_folder ++ "/" ++ f.path })).isEmpty
              · simp [mainPipeline, hb1, hd, hfd, hr, hfn, hb2, hne] at hp
              · by_cases hcf : pyLower (pyStrip inp.confirm) = "y"
                · cases w with
                  | nan => simp [mainPipeline, hb1, hd, hfd, hr, hfn, hb2, hne, hcf] at hp
                  | inf b => simp [mainPipeline, hb1, hd, hfd, hr, hfn, hb2, hne, hcf] at hp
                  | finite fd =>
                    simp only [mainPipeline, hb1, hd, hfd, hr, hfn, hb2, hne, hcf,
                      Bool.not_true, Bool.false_eq_true, if_false, ite_false, ite_true,
                      not_true, ne_eq, not_false_iff] at hp
                    rw [MainOutcome.proceed.injEq] at hp
                    obtain ⟨hpp, hss⟩ := hp
                    subst hpp
                    subst hss
                    refine ⟨rfl,
                      ⟨fd, rfl, lt_of_not_le (by simpa [pyFloatLe] using hfd), rfl⟩,
                      ⟨r, rfl, rfl⟩, by simpa using hfn, rfl, hcf, ?_, rfl⟩
                    exact ite_sortLe_ne_nil _ _ _ _
                      (by simpa [List.isEmpty_iff] using hne)
                · simp [mainPipeline, hb1, hd, hfd, hr, hfn, hb2, hne, hcf] at hp

/-- Inversion of a pipeline run proceeding with a non-finite duration:
the duration response parsed to `nan` or `+inf` (so the non-positivity
guard let it through), and every other validated prompt passed. -/
lemma mainPipeline_proceedNF_inv (inp : ConsoleInput) (env : SysEnv)
    (v : PyFloatVal) (r : Option (ℤ × ℤ)) (out : String) (files : List Img) (sm : Bool)
    (hp : mainPipeline inp env = .proceedNonFinite v r out files sm) :
    parseDuration (pyStrip inp.duration_input) = some v ∧
    (v = .nan ∨ v = .inf false) ∧
    env.isdir (pyStrip inp.image_folder) = true ∧
    (∃ rr, parseResize (pyStrip inp.resize_choice) = some rr) ∧
    (pyStrip inp.file_name).data ≠ [] ∧
    env.isdir (pyStrip inp.output_folder) = true ∧
    pyLower (pyStrip inp.confirm) = "y" := by
  cases hb1 : env.isdir (pyStrip inp.image_folder) with
  | false => simp [mainPipeline, hb1] at hp
  | true =>
    cases hd : parseDuration (pyStrip inp.duration_input) with
    | none => simp [mainPipeline, hb1, hd] at hp
    | some w =>
      cases hfd : pyFloatLe w 0 with
      | true => simp [mainPipeline, hb1, hd, hfd] at hp
      | false =>
        cases hr : parseResize (pyStrip inp.resize_choice) with
        | none => simp [mainPipeline, hb1, hd, hfd, hr] at hp
        | some rr =>
          by_cases hfn : (pyStrip inp.file_name).data.isEmpty
          · simp [mainPipeline, hb1, hd, hfd, hr, hfn] at hp
          · cases hb2 : env.isdir (pyStrip inp.output_folder) with
            | false => simp [mainPipeline, hb1, hd, hfd, hr, hfn, hb2] at hp
            | true =>
              by_cases hne : (((env.listdir (pyStrip inp.image_folder)).filter
                  (fun f => isImageFile f.path)).map
                    (fun f => { f with
                      path := pyStrip inp.image_folder ++ "/" ++ f.path })).isEmpty
              · simp [mainPipeline, hb1, hd, hfd, hr, hfn, hb2, hne] at hp
              · by_cases hcf : pyLower (pyStrip inp.confirm) = "y"
                · cases w with
                  | finite fd =>
                    simp [mainPipeline, hb1, hd, hfd, hr, hfn, hb2, hne, hcf] at hp
                  | nan =>
                    simp only [mainPipeline, hb1, hd, hfd, hr, hfn, hb2, hne, hcf,
                      Bool.not_true, Bool.false_eq_true, if_false, ite_false, ite_true,
                      not_true, ne_eq, not_false_iff] at hp
                    rw [MainOutcome.proceedNonFinite.injEq] at hp
                    obtain ⟨hv, _, _, _, _⟩ := hp
                    subst hv
                    exact ⟨rfl, Or.inl rfl, rfl, ⟨rr, rfl⟩, by simpa using hfn, rfl, hcf⟩
                  | inf b =>
                    have hb : b = false := by simpa [pyFloatLe] using hfd
                    subst hb
                    simp only [mainPipeline, hb1, hd, hfd, hr, hfn, hb2, hne, hcf,
                      Bool.not_true, Bool.false_eq_true, if_false, ite_false, ite_true,
                      not_true, ne_eq, not_false_iff] at hp
                    rw [MainOutcome.proceedNonFinite.injEq] at hp
                    obtain ⟨hv, _, _, _, _⟩ := hp
                    subst hv
                    exact ⟨rfl, Or.inr rfl, rfl, ⟨rr, rfl⟩, by simpa using hfn, rfl, hcf⟩
                · simp [mainPipeline, hb1, hd, hfd, hr, hfn, hb2, hne, hcf] at hp

lemma stage_dims (w h : ℤ) (files : List Img) :
    (stage (some (w, h)) files).all (fun f => f.width = w && f.height = h) = true := by
  simp only [stage, List.all_eq_true, List.mem_map]
  rintro f ⟨p, hp, rfl⟩
  simp [resizedDims]

lemma fallback_frames_dims (fs : List Img) (out : String) (d : ℚ) (w h : ℤ)
    (frames : List Frame)
    (hok : create_video_fallback fs out d (some (w, h)) true false = .ok frames) :
    frames.all (fun f => f.width = w && f.height = h) = true := by
  unfold create_video_fallback at hok
  by_cases hfs : fs.isEmpty = true
  · rw [if_pos hfs] at hok
    exact absurd hok (by simp)
  · simp only [hfs, Bool.not_true, Bool.false_eq_true, if_false, Except.ok.injEq] at hok
    subst hok
    simp only [List.all_eq_true, List.mem_flatMap, List.mem_replicate]
    rintro f ⟨i, hi, _, rfl⟩
    simp [processFallbackImage, resizedDims]

/-! ## Claims -/

/-- C1, counterexample: the claim says each image is written
`round(per-image-duration × 30)` times. At duration `1/20` s (= 0.05) the
fallback writes `int(0.05 × 30) = int(1.5) = 1` frame for the single
image, while `round(1.5) = 2`: the code truncates instead of rounding. -/
theorem C1_counterexample :
    create_video_fallback [img0] "out.mp4" (1/20) none true false =
      .ok [processFallbackImage none img0] ∧
    pyRound ((1/20 : ℚ) * 30) = 2 := by
  constructor
  · have h1 : framesPerImage (20⁻¹ : ℚ) = 1 := by norm_num [framesPerImage, pyIntTrunc]
    simp [create_video_fallback, img0, h1]
  · norm_num [pyRound]

/-- C1, amended: for every non-empty frame sequence and positive per-image
duration, the fallback writes each image `int(per-image-duration × 30)`
(truncation toward zero, not rounding) consecutive times to the video
writer; for duration 2.0 s this is still 60 duplicated frames per image. -/
theorem C1_amended (fs : List Img) (out : String) (d : ℚ) (r : Option (ℤ × ℤ))
    (hfs : fs ≠ []) (hd : 0 < d) :
    ∃ frames, create_video_fallback fs out d r true false = .ok frames ∧
      frames = fs.flatMap (fun i => List.replicate (framesPerImage d) (processFallbackImage r i)) ∧
      frames.length = fs.length * framesPerImage d ∧
      framesPerImage 2 = 60 := by
  refine ⟨_, ?_, rfl, length_flatMap_replicate _ _ fs, ?_⟩
  · simp [create_video_fallback, hfs]
  · norm_num [framesPerImage, pyIntTrunc]; rfl

/-- C1, witness: the amended theorem applied at one image, duration 2. -/
theorem C1_witness :
    ([img0] : List Img) ≠ [] ∧ (0 : ℚ) < 2 ∧
    (∃ frames, create_video_fallback [img0] "out.mp4" 2 none true false = .ok frames ∧
      frames = [img0].flatMap
        (fun i => List.replicate (framesPerImage 2) (processFallbackImage none i)) ∧
      frames.length = [img0].length * framesPerImage 2 ∧
      framesPerImage 2 = 60) :=
  ⟨by simp, by norm_num, C1_amended [img0] "out.mp4" 2 none (by simp) (by norm_num)⟩

/-- C3, counterexample: the claim says `temp_frames` no longer exists after
any call. When the directory already exists before the call (`mkdir` with
`exist_ok=True` would tolerate it) and the encoder binary is absent, the
`RuntimeError` is raised before the `try`, so no cleanup runs and the
directory still exists after the call. -/
theorem C3_counterexample :
    (create_video_with_ffmpeg "pics" "out.mp4" 2 none ⟨[]⟩
        ⟨false, none, 0, []⟩ true).tempDirExistsAfter = true ∧
    (create_video_with_ffmpeg "pics" "out.mp4" 2 none ⟨[]⟩
        ⟨false, none, 0, []⟩ true).result = .error .encoderUnavailable :=
  ⟨rfl, rfl⟩

/-- C3, amended: after every call to the Primary Encoder Driver in which
the directory did not pre-exist, or in which the encoder binary was
present, `temp_frames` no longer exists — on the success, encoder-error
and mid-staging-exception paths the `finally` removes it; only the
pre-`try` encoder-absent raise can leave a pre-existing directory. -/
theorem C3_amended {α : Type} (folder : α) (out : String) (d : ℚ)
    (r : Option (ℤ × ℤ)) (g : GlobalState) (env : Env) (pre : Bool)
    (h : pre = false ∨ env.ffmpegExists = true) :
    (create_video_with_ffmpeg folder out d r g env pre).tempDirExistsAfter = false := by
  unfold create_video_with_ffmpeg
  cases hff : env.ffmpegExists with
  | false =>
    rcases h with hpre | hffT
    · simp [hff, hpre]
    · exact absurd hffT (by simp [hff])
  | true =>
    cases hstage : env.stagingFailsAt with
    | none => simp [hff, hstage]
    | some k =>
      by_cases hk : k < g.image_files.length <;> simp [hff, hstage, hk]

/-- C3, witness: the amended theorem applied with the binary present. -/
theorem C3_witness :
    ((false = false ∨ (⟨true, none, 0, []⟩ : Env).ffmpegExists = true) ∧
     (create_video_with_ffmpeg "pics" "out.mp4" 2 none (⟨[]⟩ : GlobalState)
        ⟨true, none, 0, []⟩ false).tempDirExistsAfter = false) :=
  ⟨Or.inl rfl,
   C3_amended "pics" "out.mp4" 2 none ⟨[]⟩ ⟨true, none, 0, []⟩ false (Or.inl rfl)⟩

/-- C5, code bug: on a successful job the success block prints
`final_output` as the video's location, but both encode routines end
without a `return` statement, so `final_output` is `None` — not the chosen
output path. Evaluated here on a concrete successful primary-path job with
output path `vids/out.mp4`. -/
theorem C5_location_bug :
    (runJob pC sC renvOK).outcome = .ok ⟨none, sC, 1⟩ ∧
    (none : Option String) ≠ some pC.output_path := by
  exact ⟨rfl, by simp⟩

/-- C10: `create_video_with_ffmpeg` never reads its first parameter — the
staging loop iterates the module-global `image_files`. Two invocations
differing only in the first argument (of any types) produce identical
results under the same global state; in particular the staged frames and
the assembled encoder invocation coincide. -/
theorem C10_global_image_list {α β : Type} (a : α) (b : β) (out : String)
    (d : ℚ) (r : Option (ℤ × ℤ)) (g : GlobalState) (env : Env) (pre : Bool) :
    create_video_with_ffmpeg a out d r g env pre =
      create_video_with_ffmpeg b out d r g env pre ∧
    (create_video_with_ffmpeg a out d r g env pre).staged =
      (create_video_with_ffmpeg b out d r g env pre).staged ∧
    (create_video_with_ffmpeg a out d r g env pre).cmd =
      (create_video_with_ffmpeg b out d r g env pre).cmd :=
  ⟨rfl, rfl, rfl⟩

/-- C6: whenever the staging pass completes and the encoder is invoked,
the command carries input frame rate exactly `1 / frame_duration`
(rationals model the real-valued spec quantities), the `-y` overwrite
flag, and the sequential-numeric input pattern; for duration 2 the frame
rate is `1/2`. -/
theorem C6_ffmpeg_invocation {α : Type} (folder : α) (out : String) (d : ℚ)
    (r : Option (ℤ × ℤ)) (g : GlobalState) (env : Env) (pre : Bool)
    (hd : 0 < d) (hff : env.ffmpegExists = true) (hstage : env.stagingFailsAt = none) :
    (create_video_with_ffmpeg folder out d r g env pre).cmd = some (buildCmd out d) ∧
    (buildCmd out d).framerate = 1 / d ∧
    (buildCmd out d).overwrite = true ∧
    (buildCmd out d).inputPattern = "temp_frames/frame_%06d.png" ∧
    (d = 2 → (buildCmd out d).framerate = 1/2) := by
  refine ⟨?_, rfl, rfl, rfl, ?_⟩
  · unfold create_video_with_ffmpeg
    simp [hff, hstage]
  · rintro rfl; rfl

/-- C6, witness: the theorem applied at duration 2 with the binary
present and no staging failure. -/
theorem C6_witness :
    ((0 : ℚ) < 2 ∧ (⟨true, none, 0, []⟩ : Env).ffmpegExists = true ∧
      (⟨true, none, 0, []⟩ : Env).stagingFailsAt = none) ∧
    ((create_video_with_ffmpeg "pics" "out.mp4" 2 none (⟨[img0]⟩ : GlobalState)
        ⟨true, none, 0, []⟩ false).cmd = some (buildCmd "out.mp4" 2) ∧
      (buildCmd "out.mp4" 2).framerate = 1 / 2 ∧
      (buildCmd "out.mp4" 2).overwrite = true ∧
      (buildCmd "out.mp4" 2).inputPattern = "temp_frames/frame_%06d.png" ∧
      ((2 : ℚ) = 2 → (buildCmd "out.mp4" 2).framerate = 1/2)) :=
  ⟨⟨by norm_num, rfl, rfl⟩,
   C6_ffmpeg_invocation "pics" "out.mp4" 2 none ⟨[img0]⟩ ⟨true, none, 0, []⟩ false
     (by norm_num) rfl rfl⟩

/-- C7: on every call to the Primary Encoder Driver the successive
`last_percent` values reported to the progress display form a
monotonically non-decreasing chain bounded by 100 (they are naturals, so
also ≥ 0), and stderr lines without a parseable `time=` marker leave the
progress state unchanged rather than aborting the loop. -/
theorem C7_progress_invariants {α : Type} (folder : α) (out : String) (d : ℚ)
    (r : Option (ℤ × ℤ)) (g : GlobalState) (env : Env) (pre : Bool) :
    List.Chain' (· ≤ ·) (create_video_with_ffmpeg folder out d r g env pre).progress ∧
    ((create_video_with_ffmpeg folder out d r g env pre).progress.all
      (fun x => x ≤ 100)) = true ∧
    (∀ total lp, progressStep total lp .noTime = lp ∧
      progressStep total lp .badParse = lp) := by
  refine ⟨?_, ?_, fun total lp => ⟨rfl, rfl⟩⟩ <;>
  · unfold create_video_with_ffmpeg
    cases hff : env.ffmpegExists with
    | false => simp
    | true =>
      cases hstage : env.stagingFailsAt with
      | none =>
        simp only [Bool.not_true, Bool.false_eq_true, if_false]
        first
        | exact chain'_le_scanl _ env.stderrLines 0
        | exact scanl_all_le _ env.stderrLines 0 (by norm_num)
      | some k =>
        by_cases hk : k < g.image_files.length <;>
          simp only [hk, if_pos, if_neg, Bool.not_true, Bool.false_eq_true, if_false] <;>
          first
          | exact chain'_le_scanl _ env.stderrLines 0
          | exact scanl_all_le _ env.stderrLines 0 (by norm_num)
          | simpa using scanl_all_le _ env.stderrLines 0 (by norm_num)
          | simp

/-- C2: for every job, when the primary driver returns successfully the
fallback is never attempted; when it raises any error `e` (including the
encoder binary being absent) the complete job is retried exactly once via
the fallback writer, `e` is only quoted in the fallback warning and never
reported as the job's failure; a successful fallback yields a success
report, and a fallback error `e2` is terminal: the job fails with `e2`
(and only `e2`) with no further attempt. -/
theorem C2_fallback_policy (p : JobParams) (td : ℚ) (renv : RunEnv) :
    ((create_video_with_ffmpeg p.image_files p.output_path p.frame_duration p.resize
        ⟨p.image_files⟩ renv.toEnv renv.tempDirPre).result = .ok () →
      (runJob p td renv).fallbackAttempts = 0 ∧ (runJob p td renv).warned = none ∧
      (runJob p td renv).outcome = .ok ⟨none, td, p.image_files.length⟩) ∧
    (∀ e, (create_video_with_ffmpeg p.image_files p.output_path p.frame_duration p.resize
        ⟨p.image_files⟩ renv.toEnv renv.tempDirPre).result = .error e →
      (runJob p td renv).fallbackAttempts = 1 ∧ (runJob p td renv).warned = some e ∧
      ((∀ frames, create_video_fallback p.image_files p.output_path p.frame_duration p.resize
          renv.writerOpens renv.fallbackWriteFails = .ok frames →
        (runJob p td renv).outcome = .ok ⟨none, td, p.image_files.length⟩) ∧
      (∀ e2, create_video_fallback p.image_files p.output_path p.frame_duration p.resize
          renv.writerOpens renv.fallbackWriteFails = .error e2 →
        (runJob p td renv).outcome = .error e2))) := by
  constructor
  · intro hok
    simp [runJob, hok]
  · intro e herr
    refine ⟨?_, ?_, ?_, ?_⟩
    · simp only [runJob, herr]
      cases hfb : create_video_fallback p.image_files p.output_path p.frame_duration p.resize
        renv.writerOpens renv.fallbackWriteFails <;> simp
    · simp only [runJob, herr]
      cases hfb : create_video_fallback p.image_files p.output_path p.frame_duration p.resize
        renv.writerOpens renv.fallbackWriteFails <;> simp
    · intro frames hfb
      simp only [runJob, herr, hfb]
    · intro e2 hfb
      simp only [runJob, herr, hfb]

/-- C2, witness: the policy applied with the encoder binary absent and a
working fallback writer, at a one-image job of duration 2. -/
theorem C2_witness :
    (create_video_with_ffmpeg pC.image_files pC.output_path pC.frame_duration pC.resize
        ⟨pC.image_files⟩ renvNoFfmpeg.toEnv renvNoFfmpeg.tempDirPre).result =
      .error .encoderUnavailable ∧
    (runJob pC sC renvNoFfmpeg).fallbackAttempts = 1 ∧
    (runJob pC sC renvNoFfmpeg).warned = some .encoderUnavailable ∧
    ((∀ frames, create_video_fallback pC.image_files pC.output_path pC.frame_duration pC.resize
        renvNoFfmpeg.writerOpens renvNoFfmpeg.fallbackWriteFails = .ok frames →
      (runJob pC sC renvNoFfmpeg).outcome = .ok ⟨none, sC, pC.image_files.length⟩) ∧
    (∀ e2, create_video_fallback pC.image_files pC.output_path pC.frame_duration pC.resize
        renvNoFfmpeg.writerOpens renvNoFfmpeg.fallbackWriteFails = .error e2 →
      (runJob pC sC renvNoFfmpeg).outcome = .error e2)) :=
  ⟨rfl, (C2_fallback_policy pC sC renvNoFfmpeg).2 .encoderUnavailable rfl⟩

/-- C4: for every validated job (non-empty frame sequence, positive
duration — both enforced by the pipeline before it proceeds), the duration
figure printed in the pre-run summary equals
`frame_count × per-image-duration`, and so does the duration figure in the
success report of any successful run, which also reports the frame count. -/
theorem C4_total_duration (inp : ConsoleInput) (env : SysEnv) (p : JobParams) (s : ℚ)
    (hp : mainPipeline inp env = .proceed p s) :
    s = (p.image_files.length : ℚ) * p.frame_duration ∧
    ∀ (renv : RunEnv) (sr : SuccessReport), (runJob p s renv).outcome = .ok sr →
      sr.duration = (p.image_files.length : ℚ) * p.frame_duration ∧
      sr.totalImages = p.image_files.length := by
  have hs : s = (p.image_files.length : ℚ) * p.frame_duration :=
    (mainPipeline_proceed_inv inp env p s hp).2.2.2.2.2.2.2
  refine ⟨hs, fun renv sr hok => ?_⟩
  rw [← hs]
  unfold runJob at hok
  cases hpr : (create_video_with_ffmpeg p.image_files p.output_path p.frame_duration p.resize
      ⟨p.image_files⟩ renv.toEnv renv.tempDirPre).result with
  | ok u =>
    simp only [hpr, Except.ok.injEq] at hok
    rw [← hok]
    exact ⟨rfl, rfl⟩
  | error e =>
    simp only [hpr] at hok
    cases hfb : create_video_fallback p.image_files p.output_path p.frame_duration p.resize
        renv.writerOpens renv.fallbackWriteFails with
    | ok frames =>
      simp only [hfb, Except.ok.injEq] at hok
      rw [← hok]
      exact ⟨rfl, rfl⟩
    | error e2 =>
      simp only [hfb] at hok
      exact absurd hok (by simp)

/-- C8, counterexample: two prompts accept invalid responses without
aborting. The sort-mode prompt offers "1 or 2", yet the response `"3"`
proceeds (any answer other than `"2"` means sort-by-filename); and the
duration response `"nan"` — accepted by `float()` and not caught by the
`<= 0` guard, since NaN comparisons are false — also proceeds past
validation, with a non-finite per-image duration. Both contradict the
claim that every invalid response aborts with an early return. -/
theorem C8_counterexample :
    mainPipeline inpC envC = .proceed pC sC ∧
    mainPipeline { inpC with duration_input := "nan" } envC =
      .proceedNonFinite .nan none "vids/out.mp4" [⟨"pics/a.jpg", 640, 480, 0⟩] false :=
  ⟨rfl, rfl⟩

/-- C8, amended: invalid responses to the source-folder, target-resolution,
output-filename, output-folder and confirmation prompts abort the job
before processing begins — whenever the pipeline proceeds those checks
passed. The duration prompt aborts on literals `float()` rejects and on
values comparing `<= 0`, but the non-finite literals `nan` and
`inf`/`infinity` slip through (NaN and `+inf` fail the `<= 0`
comparison), so the job proceeds past validation with a non-finite
duration while every other check still holds. The sort-mode prompt alone
performs no validation: any response whose stripped form is not `"2"`
behaves exactly like `"1"` (sort by filename). -/
theorem C8_amended :
    (∀ (inp : ConsoleInput) (env : SysEnv) (p : JobParams) (s : ℚ),
      mainPipeline inp env = .proceed p s →
        env.isdir (pyStrip inp.image_folder) = true ∧
        (∃ d : ℚ, parseDuration (pyStrip inp.duration_input) = some (.finite d) ∧ 0 < d) ∧
        (∃ r, parseResize (pyStrip inp.resize_choice) = some r) ∧
        (pyStrip inp.file_name).data ≠ [] ∧
        env.isdir (pyStrip inp.output_folder) = true ∧
        pyLower (pyStrip inp.confirm) = "y") ∧
    (∀ (inp : ConsoleInput) (env : SysEnv) (v : PyFloatVal) (r : Option (ℤ × ℤ))
        (out : String) (files : List Img) (sm : Bool),
      mainPipeline inp env = .proceedNonFinite v r out files sm →
        parseDuration (pyStrip inp.duration_input) = some v ∧
        (v = .nan ∨ v = .inf false) ∧
        env.isdir (pyStrip inp.image_folder) = true ∧
        (∃ rr, parseResize (pyStrip inp.resize_choice) = some rr) ∧
        (pyStrip inp.file_name).data ≠ [] ∧
        env.isdir (pyStrip inp.output_folder) = true ∧
        pyLower (pyStrip inp.confirm) = "y") ∧
    (∀ (inp : ConsoleInput) (env : SysEnv) (c : String),
      pyStrip c ≠ "2" →
      mainPipeline { inp with sort_choice := c } env =
        mainPipeline { inp with sort_choice := "1" } env) := by
  refine ⟨?_, ?_, ?_⟩
  · intro inp env p s hp
    obtain ⟨h1, ⟨d, hd, hdpos, _⟩, ⟨r, hr, _⟩, h4, h5, h6, _, _⟩ :=
      mainPipeline_proceed_inv inp env p s hp
    exact ⟨h1, ⟨d, hd, hdpos⟩, ⟨r, hr⟩, h4, h5, h6⟩
  · intro inp env v r out files sm hp
    exact mainPipeline_proceedNF_inv inp env v r out files sm hp
  · intro inp env c hc
    have hkey : ((if (pyStrip c).data.isEmpty = true then "1" else pyStrip c) = "2") = False := by
      split
      · simp
      · simpa using hc
    have hone :
        ((if (pyStrip ("1" : String)).data.isEmpty = true then "1" else pyStrip "1") = "2")
          = False := by
      simpa using (by decide : ¬ pyStrip ("1" : String) = "2")
    simp only [mainPipeline, hkey, hone, if_false, decide_False]

/-- C8, witness: the amended theorem applied at the concrete proceeding
run (every validated prompt satisfied), at the run whose duration
response is `"nan"` (proceeding with a non-finite duration), and at the
unvalidated sort response `"3"`. -/
theorem C8_witness :
    (envC.isdir (pyStrip inpC.image_folder) = true ∧
     (∃ d : ℚ, parseDuration (pyStrip inpC.duration_input) = some (.finite d) ∧ 0 < d) ∧
     (∃ r, parseResize (pyStrip inpC.resize_choice) = some r) ∧
     (pyStrip inpC.file_name).data ≠ [] ∧
     envC.isdir (pyStrip inpC.output_folder) = true ∧
     pyLower (pyStrip inpC.confirm) = "y") ∧
    (parseDuration (pyStrip ("nan" : String)) = some .nan ∧
     (PyFloatVal.nan = .nan ∨ PyFloatVal.nan = .inf false) ∧
     envC.isdir (pyStrip inpC.image_folder) = true ∧
     (∃ rr, parseResize (pyStrip inpC.resize_choice) = some rr) ∧
     (pyStrip inpC.file_name).data ≠ [] ∧
     envC.isdir (pyStrip inpC.output_folder) = true ∧
     pyLower (pyStrip inpC.confirm) = "y") ∧
    mainPipeline { inpC with sort_choice := "3" } envC =
      mainPipeline { inpC with sort_choice := "1" } envC :=
  ⟨C8_amended.1 inpC envC pC sC rfl,
   C8_amended.2.1 { inpC with duration_input := "nan" } envC .nan none "vids/out.mp4"
     [⟨"pics/a.jpg", 640, 480, 0⟩] false rfl,
   C8_amended.2.2 inpC envC "3" (by decide)⟩

/-- C9: with resolution response `"1280x720"` the job proceeds with target
dimensions `(1280, 720)` and both encode paths apply them to every frame
(every staged frame and every fallback-written frame is 1280×720); with
the malformed response `"abcx720"` the pipeline aborts with the resolution
validation error, whatever the source directory contains — the abort
happens before image collection. -/
theorem C9_resolution (ld : String → List Img) :
    (mainPipeline (inpRes "1280x720") envC = .proceed pRes sC ∧
     pRes.resize = some (1280, 720) ∧
     (stage (some (1280, 720)) pRes.image_files).all
       (fun f => f.width = 1280 && f.height = 720) = true ∧
     (create_video_fallback pRes.image_files pRes.output_path pRes.frame_duration
        (some (1280, 720)) true false).map
       (fun frames => frames.all (fun f => f.width = 1280 && f.height = 720)) = .ok true) ∧
    mainPipeline (inpRes "abcx720") ⟨envC.isdir, ld⟩ = .abortBadResize := by
  refine ⟨⟨rfl, rfl, stage_dims _ _ _, ?_⟩, rfl⟩
  cases hfb : create_video_fallback pRes.image_files pRes.output_path pRes.frame_duration
      (some (1280, 720)) true false with
  | ok frames =>
    simpa [Except.map, hfb] using fallback_frames_dims _ _ _ _ _ _ hfb
  | error e =>
    exfalso
    revert hfb
    simp [create_video_fallback, pRes]

/-- C4, witness: the theorem applied to the concrete proceeding pipeline
run (one image, duration 2) and its successful primary-path job. -/
theorem C4_witness :
    mainPipeline inpC envC = .proceed pC sC ∧
    (sC = (pC.image_files.length : ℚ) * pC.frame_duration ∧
      ∀ (renv : RunEnv) (sr : SuccessReport), (runJob pC sC renv).outcome = .ok sr →
        sr.duration = (pC.image_files.length : ℚ) * pC.frame_duration ∧
        sr.totalImages = pC.image_files.length) :=
  ⟨rfl, C4_total_duration inpC envC pC sC rfl⟩
